import Mathlib

/-!
Verification of the structural schema inference engine of the Mock_JSON
repository (schema_analyzer.py, mock_data_generator.py, cache/schema_cache.py).

The Python values handled by the engine are JSON-like trees; we embed them as
the mutual inductive `Json`/`JList`/`JObj` (Python dict iteration order is
represented by the order of the association list).  The schema dictionaries
produced by `_analyze_structure` / `_merge_structures` are Python dicts with
the optional keys "type", "properties", "items", "preserve_original" and
"original_values"; we embed them as `Schema`/`Props`, one optional field per
key (`preserve_original` is read with `schema.get("preserve_original", False)`
everywhere in the source, so a missing key and `False` are identified).
-/

namespace MockJson

mutual
inductive Json where
  | null : Json
  | bool (b : Bool) : Json
  | num (n : Int) : Json
  | str (s : String) : Json
  | arr (xs : JList) : Json
  | obj (fields : JObj) : Json
  deriving DecidableEq
inductive JList where
  | nil : JList
  | cons (head : Json) (tail : JList) : JList
  deriving DecidableEq
inductive JObj where
  | nil : JObj
  | cons (key : String) (val : Json) (tail : JObj) : JObj
  deriving DecidableEq
end

/-- Python `field_name in example` / `example[field_name]` on a dict: first
binding of the key. -/
def JObj.lookup : JObj → String → Option Json
  | .nil, _ => none
  | .cons k v rest, key => if k = key then some v else rest.lookup key

/-- View a `JList` as a host-level list of values. -/
def JList.toList : JList → List Json
  | .nil => []
  | .cons x xs => x :: xs.toList

mutual
inductive Schema where
  | mk (type? : Option String) (properties? : Option Props)
       (items? : Option Schema) (preserveOriginal : Bool)
       (originalValues? : Option (List Json)) : Schema
inductive Props where
  | nil : Props
  | cons (key : String) (val : Schema) (tail : Props) : Props
end

/-- `structure.get("type")`. -/
def Schema.type? : Schema → Option String
  | .mk t _ _ _ _ => t

/-- `structure.get("properties")` (`None` when the key is absent). -/
def Schema.properties? : Schema → Option Props
  | .mk _ p _ _ _ => p

/-- `structure.get("items")` (`None` when the key is absent). -/
def Schema.items? : Schema → Option Schema
  | .mk _ _ i _ _ => i

/-- `structure.get("preserve_original", False)`. -/
def Schema.preserveOriginal : Schema → Bool
  | .mk _ _ _ pr _ => pr

/-- `structure.get("original_values")` (`None` when the key is absent). -/
def Schema.originalValues? : Schema → Option (List Json)
  | .mk _ _ _ _ o => o

/-- Python `key in props` / `props[key]` on a dict of sub-schemas. -/
def Props.lookup : Props → String → Option Schema
  | .nil, _ => none
  | .cons k v rest, key => if k = key then some v else rest.lookup key

def Props.append : Props → Props → Props
  | .nil, q => q
  | .cons k v rest, q => .cons k v (rest.append q)

def Props.keys : Props → List String
  | .nil => []
  | .cons k _ rest => k :: rest.keys

/-- A leaf schema dict `{"type": t}`. -/
def leafSchema (t : String) : Schema := .mk (some t) none none false none

mutual
/-- Structural size of a schema: counts the schema nodes reachable through
"properties" and "items", ignoring the annotation fields; an "array" node
without an "items" key counts an extra 1, because the source supplies the
default item schema `{"type": "string"}` there. -/
def msize : Schema → Nat
  | .mk t p i _ _ =>
    1 + (match p with | some ps => pmsize ps | none => 0)
      + (match i with
         | some s => msize s
         | none => if t = some "array" then 1 else 0)
def pmsize : Props → Nat
  | .nil => 0
  | .cons _ v rest => 1 + msize v + pmsize rest
end

theorem pmsize_lookup_lt : ∀ {ps : Props} {key : String} {v : Schema},
    ps.lookup key = some v → msize v < 1 + pmsize ps
  | .nil, _, _, h => by simp [Props.lookup] at h
  | .cons k w rest, key, v, h => by
    simp only [Props.lookup] at h
    split at h
    · injection h with h; subst h; unfold pmsize; omega
    · have := pmsize_lookup_lt h; unfold pmsize; omega

theorem msize_pos (s : Schema) : 0 < msize s := by
  rcases s with ⟨t, p, i, pr, o⟩
  cases p <;> cases i <;> simp [msize] <;> omega

theorem pmsize_properties_getD_lt (s : Schema) :
    pmsize (s.properties?.getD .nil) < msize s := by
  rcases s with ⟨t, p, i, pr, o⟩
  cases p <;> cases i <;> simp [Schema.properties?, msize, pmsize] <;>
    first | omega | (split <;> omega)

theorem msize_items_getD_lt {s : Schema} (h : s.type? = some "array") :
    msize (s.items?.getD (leafSchema "string")) < msize s := by
  rcases s with ⟨t, p, i, pr, o⟩
  simp only [Schema.type?] at h
  subst h
  cases p <;> cases i <;> simp [Schema.items?, msize, pmsize, leafSchema] <;>
    first | omega | (split <;> omega)

mutual
/-- `MockDataGenerator._merge_structures` (mock_data_generator.py lines
267-289); `SchemaAnalyzer.merge_structures` at schema_analyzer.py lines 52-83
is the same code, except that the recursive calls it makes for shared object
keys and for array items name the attribute `_merge_structures`, which the
`SchemaAnalyzer` class does not define (see `saAnalyzeValue` below for the
embedding of that class's failing call sites). -/
def mergeStructures (s1 s2 : Schema) : Schema :=
  if s1.type? ≠ s2.type? then
    if s1.type? ≠ some "string" then s1 else s2
  else if s1.type? = some "object" then
    let props1 := s1.properties?.getD .nil
    let props2 := s2.properties?.getD .nil
    .mk (some "object") (some ((mergeUpdated props1 props2).append (mergeFresh props1 props2))) none false none
  else if h2 : s1.type? = some "array" then
    let items1 := s1.items?.getD (leafSchema "string")
    let items2 := s2.items?.getD (leafSchema "string")
    .mk (some "array") none (some (mergeStructures items1 items2)) false none
  else
    s1
termination_by msize s1 + msize s2
decreasing_by
  all_goals first
    | exact Nat.add_lt_add (pmsize_properties_getD_lt s1) (pmsize_properties_getD_lt s2)
    | (have h2' : s2.type? = some "array" := by
         have h := Decidable.not_not.mp ‹¬s1.type? ≠ s2.type?›
         rw [← h]; exact h2
       exact Nat.add_lt_add (msize_items_getD_lt h2) (msize_items_getD_lt h2'))

/-- Effect of the loop `for key, value in structure2["properties"].items()`
on the keys already present in `merged_props`: the dict starts as
`structure1["properties"].copy()`, an in-place update keeps a key's position,
and the keys of a Python dict are distinct, so the keys of `structure1` keep
their order, each merged with the value of `structure2` at the same key when
there is one. -/
def mergeUpdated (base other : Props) : Props :=
  match base with
  | .nil => .nil
  | .cons k v rest =>
    match h : other.lookup k with
    | some v2 => .cons k (mergeStructures v v2) (mergeUpdated rest other)
    | none => .cons k v (mergeUpdated rest other)
termination_by pmsize base + pmsize other
decreasing_by
  all_goals first
    | (have hq := pmsize_lookup_lt h; simp [pmsize]; omega)
    | (simp [pmsize]; try omega)

/-- Effect of the same loop on the keys of `structure2` that are absent from
`merged_props`: they are appended in iteration order. -/
def mergeFresh (base other : Props) : Props :=
  match other with
  | .nil => .nil
  | .cons k v rest =>
    if (base.lookup k).isNone then .cons k v (mergeFresh base rest)
    else mergeFresh base rest
termination_by pmsize base + pmsize other
decreasing_by
  all_goals (simp [pmsize]; try omega)
end

example : mergeStructures (leafSchema "string") (leafSchema "number") = leafSchema "number" := by
  rw [mergeStructures.eq_def]
  simp [leafSchema, Schema.type?]

/-- The schema produced for an empty list:
`{"type": "array", "items": {"type": "object", "properties": {}}}`. -/
def emptyArraySchema : Schema :=
  .mk (some "array") none (some (.mk (some "object") (some .nil) none false none)) false none

mutual
/-- `MockDataGenerator._analyze_structure` (mock_data_generator.py lines
291-327): classify a value, recursing with `max_depth - 1`; `bool` is tested
before `int`/`float` (a Python `bool` is an `int`), and a value that is none
of dict, list, bool, int, float, str — in particular `None` — falls through
to the final `{"type": "string"}` branch.  `SchemaAnalyzer._analyze_structure`
(schema_analyzer.py lines 130-175) is textually the same code, but its merge
call names the attribute `_merge_structures`, which `SchemaAnalyzer` does not
define: `saAnalyzeValue` below models that copy. -/
def analyzeStructure (v : Json) (d : Nat) : Schema :=
  if d = 0 then leafSchema "string"
  else match v with
    | .obj fields => .mk (some "object") (some (analyzeProps fields (d - 1))) none false none
    | .arr .nil => emptyArraySchema
    | .arr (.cons x xs) =>
      .mk (some "array") none (some (analyzeItems (analyzeStructure x (d - 1)) xs (d - 1))) false none
    | .bool _ => leafSchema "boolean"
    | .num _ => leafSchema "number"
    | .str _ => leafSchema "string"
    | .null => leafSchema "string"
termination_by sizeOf v

/-- The loop `for key, value in obj.items()` building `structure["properties"]`. -/
def analyzeProps (fields : JObj) (d : Nat) : Props :=
  match fields with
  | .nil => .nil
  | .cons k v rest => .cons k (analyzeStructure v d) (analyzeProps rest d)
termination_by sizeOf fields

/-- The fold `merged_items = self._merge_structures(merged_items, item_structure)`
over the remaining list items (the source first collects every
`item_structure` and then folds; since `_analyze_structure` is pure, folding
as the items are analyzed gives the same result). -/
def analyzeItems (acc : Schema) (xs : JList) (d : Nat) : Schema :=
  match xs with
  | .nil => acc
  | .cons y ys => analyzeItems (mergeStructures acc (analyzeStructure y d)) ys d
termination_by sizeOf xs
end

example : analyzeStructure (.obj (.cons "a" (.num 1) .nil)) 10 =
    .mk (some "object") (some (.cons "a" (leafSchema "number") .nil)) none false none := by
  simp [analyzeStructure, analyzeProps]

example : analyzeStructure .null 10 = leafSchema "string" := by
  simp [analyzeStructure]

/-- The Python exceptions that the embedded code can raise. -/
inductive PyErr where
  | attributeError : PyErr
  deriving DecidableEq

mutual
/-- `SchemaAnalyzer._analyze_structure` (schema_analyzer.py lines 130-175).
The only difference from `analyzeStructure` is operational: for a list with
two or more elements the loop body
`merged_items = self._merge_structures(merged_items, item_structure)` looks
up the attribute `_merge_structures` on a `SchemaAnalyzer`, which defines
`merge_structures` but no `_merge_structures`, so the first iteration raises
`AttributeError` (after every `item_structure` has been computed, since the
`item_structures` list is built by the preceding loop). -/
def saAnalyzeValue (v : Json) (d : Nat) : Except PyErr Schema :=
  if d = 0 then .ok (leafSchema "string")
  else match v with
    | .obj fields => do
      let ps ← saAnalyzeProps fields (d - 1)
      .ok (.mk (some "object") (some ps) none false none)
    | .arr .nil => .ok emptyArraySchema
    | .arr (.cons x xs) => do
      let s ← saAnalyzeValue x (d - 1)
      match xs with
      | .nil => .ok (.mk (some "array") none (some s) false none)
      | .cons y ys => do
        let _ ← saAnalyzeItemList (.cons y ys) (d - 1)
        .error .attributeError
    | .bool _ => .ok (leafSchema "boolean")
    | .num _ => .ok (leafSchema "number")
    | .str _ => .ok (leafSchema "string")
    | .null => .ok (leafSchema "string")
termination_by sizeOf v

/-- The dict loop of `SchemaAnalyzer._analyze_structure`, propagating an
exception raised while analyzing a value. -/
def saAnalyzeProps (fields : JObj) (d : Nat) : Except PyErr Props :=
  match fields with
  | .nil => .ok .nil
  | .cons k v rest => do
    let s ← saAnalyzeValue v d
    let ps ← saAnalyzeProps rest d
    .ok (.cons k s ps)
termination_by sizeOf fields

/-- The loop building `item_structures` in `SchemaAnalyzer._analyze_structure`:
each element is analyzed (its exceptions propagate) before the merge loop
raises `AttributeError`. -/
def saAnalyzeItemList (xs : JList) (d : Nat) : Except PyErr Unit :=
  match xs with
  | .nil => .ok ()
  | .cons y ys => do
    let _ ← saAnalyzeValue y d
    saAnalyzeItemList ys d
termination_by sizeOf xs
end

example : saAnalyzeValue (.arr (.cons (.num 1) (.cons (.num 2) .nil))) 10 =
    .error .attributeError := by
  simp [saAnalyzeValue, saAnalyzeItemList, Bind.bind, Except.bind]


/-- The hard-coded preserve set (schema_analyzer.py lines 187-197, identical
to `MockDataGenerator.preserve_fields` at mock_data_generator.py lines
50-60). -/
def preserveFields : List String :=
  ["status", "message", "transId", "entity",
   "id",
   "requiredRenewal", "isExpired", "isActive", "isSmart", "isKlasi",
   "isRiziko", "isCopyPolicyDoc", "isPaila", "isIndependent", "isNew",
   "sign",
   "eSite",
   "totalPayments",
   "paymentNo",
   "yieldBeginningYear", "lastDeposit", "depositedThisYear",
   "availableWithdraw", "withdrawDate", "yieldFromYearBeginningTotal",
   "fromDeposit", "fromSaving", "yieldUpdateDate", "dailyYieldUpdateDate",
   "hasProfitsShare", "updateTo", "dailyUpdateTo", "tsuotPopup"]

/-- `SchemaAnalyzer._should_preserve_field` (schema_analyzer.py lines
177-198) / the test `field_name in self.preserve_fields`
(mock_data_generator.py line 216). -/
def shouldPreserveField (name : String) : Bool :=
  preserveFields.contains name

/-- The accumulator loop of `_extract_original_values` (schema_analyzer.py
lines 200-217 = mock_data_generator.py lines 251-259): for every example
that is a dict containing the key, append its value unless an equal value
was already collected. -/
def extractOriginalValuesAux (name : String) (values : List Json) : List Json → List Json
  | [] => values
  | e :: rest =>
    match e with
    | .obj fields =>
      match fields.lookup name with
      | some v =>
        extractOriginalValuesAux name (if v ∈ values then values else values ++ [v]) rest
      | none => extractOriginalValuesAux name values rest
    | _ => extractOriginalValuesAux name values rest

/-- `_extract_original_values(field_name, examples)`. -/
def extractOriginalValues (name : String) (examples : List Json) : List Json :=
  extractOriginalValuesAux name [] examples

/-- `_extract_nested_value(obj, field_name)` (schema_analyzer.py lines
219-232): `obj.get(field_name)` on a dict, `None` otherwise.  A JSON `null`
stored under the key is the Python value `None`, indistinguishable from a
missing key, so both map to `none`. -/
def extractNestedValue (e : Json) (name : String) : Option Json :=
  match e with
  | .obj fields =>
    match fields.lookup name with
    | some v => if v = .null then none else some v
    | none => none
  | _ => none

/-- `[self._extract_nested_value(example, field_name) for example in examples]`
with the `None` entries dropped (lines 106-107). -/
def nestedExamples (examples : List Json) (name : String) : List Json :=
  examples.filterMap (fun e => extractNestedValue e name)

/-- The loop at lines 113-117: concatenate every list found at
`example[field_name]` (non-list values, including a missing key and `None`,
contribute nothing). -/
def arrayExamples (examples : List Json) (name : String) : List Json :=
  examples.flatMap (fun e =>
    match extractNestedValue e name with
    | some (.arr xs) => xs.toList
    | _ => [])

/-- Lines 96-102: `field_structure["preserve_original"] = True`, then
`field_structure["original_values"] = original_values` only when the
extracted list is non-empty (when it is empty any pre-existing
"original_values" entry is left alone). -/
def markPreserved (name : String) (examples : List Json) (child : Schema) : Schema :=
  match child with
  | .mk t p i _ o =>
    let ovs := extractOriginalValues name examples
    .mk t p i true (if ovs.isEmpty then o else some ovs)

theorem msize_markPreserved (name : String) (examples : List Json) (child : Schema) :
    msize (markPreserved name examples child) = msize child := by
  rcases child with ⟨t, p, i, pr, o⟩
  cases p <;> cases i <;> simp [markPreserved, msize]

theorem pmsize_lt_of_properties {s : Schema} {ps : Props}
    (h : s.properties? = some ps) : pmsize ps < msize s := by
  have := pmsize_properties_getD_lt s
  rw [h] at this
  simpa using this

theorem msize_lt_of_items {s : Schema} {it : Schema}
    (h : s.items? = some it) : msize it < msize s := by
  rcases s with ⟨t, p, i, pr, o⟩
  simp only [Schema.items?] at h
  subst h
  cases p <;> simp [msize] <;> omega

/-- Replace the "properties" entry of a schema dict, keeping everything else. -/
def Schema.setProperties : Schema → Option Props → Schema
  | .mk t _ i pr o, p => .mk t p i pr o

/-- Replace the "items" entry of a schema dict, keeping everything else. -/
def Schema.setItems : Schema → Option Schema → Schema
  | .mk t p _ pr o, i => .mk t p i pr o

theorem msize_markPreserved_if (name : String) (examples : List Json)
    (child : Schema) (b : Bool) :
    msize (if b then markPreserved name examples child else child) = msize child := by
  split
  · exact msize_markPreserved name examples child
  · rfl

mutual
/-- `_add_preserved_field_info(structure, examples)` (schema_analyzer.py
lines 85-128 = mock_data_generator.py lines 211-249, which differ only by a
debug print), written as a function returning the mutated structure.  For an
"object" node every property is processed by `annotateProps`; for an "array"
node reached directly the items schema is annotated with the same example
list (`structure.get("items", {})` yields a fresh empty dict when the key is
absent, whose mutation is lost, hence the node is returned unchanged). -/
def addPreservedFieldInfo (s : Schema) (examples : List Json) : Schema :=
  if s.type? = some "object" then
    match hp : s.properties? with
    | none => s
    | some ps => s.setProperties (some (annotateProps ps examples))
  else if s.type? = some "array" then
    if examples.isEmpty then s
    else
      match hi : s.items? with
      | some it => s.setItems (some (addPreservedFieldInfo it examples))
      | none => s
  else s
termination_by 2 * msize s
decreasing_by
  all_goals first
    | (have hq := pmsize_lt_of_properties hp; omega)
    | (have hq := msize_lt_of_items hi; omega)

/-- The loop `for field_name, field_structure in properties.items()` (lines
95-121), one property at a time: mark the property when its name is in the
preserve set (lines 96-102), then recurse into it (see `annotateChildCore`). -/
def annotateProps (ps : Props) (examples : List Json) : Props :=
  match ps with
  | .nil => .nil
  | .cons name child rest =>
    .cons name
      (annotateChildCore name
        (if shouldPreserveField name then markPreserved name examples child else child)
        examples)
      (annotateProps rest examples)
termination_by 2 * pmsize ps + 1
decreasing_by
  all_goals first
    | (split <;> first
        | (rw [msize_markPreserved]; simp [pmsize]; omega)
        | (simp [pmsize]; omega))
    | (simp [pmsize]; try omega)

/-- The rest of that loop body, applied to the (possibly preserve-marked)
property `child1`: recurse into an "object"-typed property with the
non-`None` nested examples at that name, when there are any (lines 104-109),
or into the "items" schema of an "array"-typed property with the
concatenation of the lists found at that name, when it is non-empty (lines
111-121; `field_structure.get("items", {})` yields a throwaway fresh dict
when the "items" key is absent, so the property is then left unchanged). -/
def annotateChildCore (name : String) (child1 : Schema) (examples : List Json) : Schema :=
  if child1.type? = some "object" then
    if (nestedExamples examples name).isEmpty then child1
    else addPreservedFieldInfo child1 (nestedExamples examples name)
  else if child1.type? = some "array" then
    if (arrayExamples examples name).isEmpty then child1
    else
      match hi : child1.items? with
      | some it => child1.setItems (some (addPreservedFieldInfo it (arrayExamples examples name)))
      | none => child1
  else child1
termination_by 2 * msize child1 + 1
decreasing_by
  all_goals first
    | omega
    | (have hq := msize_lt_of_items hi; omega)
end

/-- The full loop body for one property `name -> child` of
`_add_preserved_field_info` (lines 96-121). -/
def annotateChild (name : String) (child : Schema) (examples : List Json) : Schema :=
  annotateChildCore name
    (if shouldPreserveField name then markPreserved name examples child else child)
    examples

/-- cache/schema_cache.py: `SchemaCache._cache` is a plain dict from key to
schema, represented as an association list in insertion order. -/
def SchemaCache := List (String × Schema)

/-- `SchemaCache.get_schema(key)`: `self._cache.get(key)`. -/
def SchemaCache.getSchema : SchemaCache → String → Option Schema
  | [], _ => none
  | (k, v) :: rest, key => if k = key then some v else SchemaCache.getSchema rest key

/-- `SchemaCache.set_schema(key, schema)`: `self._cache[key] = schema`
(overwrites in place, or appends a new binding). -/
def SchemaCache.setSchema : SchemaCache → String → Schema → SchemaCache
  | [], key, s => [(key, s)]
  | (k, v) :: rest, key, s =>
    if k = key then (key, s) :: rest else (k, v) :: SchemaCache.setSchema rest key s

theorem type_eq_of_getD_array {s : Schema} (h : s.type?.getD "string" = "array") :
    s.type? = some "array" := by
  rcases s with ⟨t, p, i, pr, o⟩
  cases t <;> simp_all [Schema.type?]

theorem SchemaCache.getSchema_setSchema (c : SchemaCache) (key : String) (s : Schema) :
    (c.setSchema key s).getSchema key = some s := by
  induction c with
  | nil => simp [SchemaCache.setSchema, SchemaCache.getSchema]
  | cons kv rest ih =>
    rcases kv with ⟨k, v⟩
    by_cases h : k = key <;>
      simp [SchemaCache.setSchema, SchemaCache.getSchema, h, ih]

/-- The schema returned for an empty example list:
`{"type": "object", "properties": {}}`. -/
def emptyObjectSchema : Schema := .mk (some "object") (some .nil) none false none

/-- `SchemaAnalyzer.analyze_structure(examples, cache_key)` (schema_analyzer.py
lines 26-50), with the resolved cache key passed as `key` (the source uses
`cache_key or str(hash(str(examples)))`).  An empty example list returns the
empty object schema before the cache is consulted.  On a cache hit the stored
schema is returned unchanged.  Otherwise the first example is analyzed by
`SchemaAnalyzer._analyze_structure`; for each further example the loop body
evaluates `self._merge_structures`, an attribute the class does not define,
so a corpus of two or more examples raises `AttributeError`; on success the
merged schema is annotated in place, stored, and returned. -/
def saAnalyzeStructure (cache : SchemaCache) (examples : List Json) (key : String) :
    Except PyErr (Schema × SchemaCache) :=
  match examples with
  | [] => .ok (emptyObjectSchema, cache)
  | e0 :: rest =>
    match cache.getSchema key with
    | some cached => .ok (cached, cache)
    | none => do
      let base ← saAnalyzeValue e0 10
      let merged ← match rest with
        | [] => Except.ok base
        | _ :: _ => Except.error PyErr.attributeError
      let annotated := addPreservedFieldInfo merged examples
      .ok (annotated, cache.setSchema key annotated)

/-- The field names for which `_generate_mock_object` special-cases a "value"
or "currency" property (mock_data_generator.py lines 461-464). -/
def moneyFieldNames : List String :=
  ["sumsaving", "summonthchange", "accumulatechange", "totalsaving",
   "fluentwithdraw", "expectedforretirement", "savingexpectedforretirement",
   "savingsum", "fluentsum"]

/-- The external sources of randomness and fabricated values used by the
Value Synthesizer, abstracted as a fixed oracle: `mockString` stands for
`_generate_mock_string(field_name)` (a `str`-returning heuristic over Faker
and `random`, out of the structural decision logic), `mockNumber` for
`_generate_mock_number(field_name)` (an `int` or `float`), `mockBool` for
`random.choice([True, False])`, `choice` for `random.choice(original_values)`,
`arrayLen` for `random.randint(1, 5)`, and the remaining fields for the
special-cased draws of `_generate_mock_object`. -/
structure Producer where
  mockString : String → String
  mockNumber : String → Json
  mockBool : Bool
  choice : List Json → Json
  arrayLen : Nat
  moneyValue : Json
  currencyChoice : Json
  statusNum : Int
  statusDesc : String

/-- `[... for _ in range(array_length)]` with every draw replaced by the
oracle value. -/
def JList.replicate : Nat → Json → JList
  | 0, _ => .nil
  | n + 1, v => .cons v (JList.replicate n v)

mutual
/-- `MockDataGenerator.generate_mock_value(schema, field_name)`
(mock_data_generator.py lines 329-351): a preserved schema with a non-empty
"original_values" list returns one of those values; otherwise dispatch on
`schema.get("type", "string")`, falling back to the string generator for an
unknown type.  No branch raises: there is no `SchemaMalformedError` (or any
raise statement) anywhere in mock_data_generator.py, and the class of that
name does not exist in the repository. -/
def generateMockValue (p : Producer) (schema : Schema) (fieldName : String) : Json :=
  if schema.preserveOriginal && !(schema.originalValues?.getD []).isEmpty then
    p.choice (schema.originalValues?.getD [])
  else
    let schemaType := schema.type?.getD "string"
    if schemaType = "string" then .str (p.mockString fieldName)
    else if schemaType = "number" then p.mockNumber fieldName
    else if schemaType = "boolean" then .bool p.mockBool
    else if h : schemaType = "array" then
      generateMockArray p schema fieldName (type_eq_of_getD_array h)
    else if schemaType = "object" then generateMockObject p schema fieldName
    else .str (p.mockString fieldName)
termination_by 3 * msize schema + 1
decreasing_by
  all_goals omega

/-- `_generate_mock_array(schema, field_name)` (lines 440-445):
`schema.get("items", {"type": "string"})`, then 1-5 items generated with the
same field name. -/
def generateMockArray (p : Producer) (schema : Schema) (fieldName : String)
    (h : schema.type? = some "array") : Json :=
  let itemsSchema := schema.items?.getD (leafSchema "string")
  .arr (JList.replicate p.arrayLen (generateMockValue p itemsSchema fieldName))
termination_by 3 * msize schema
decreasing_by
  have := msize_items_getD_lt h; omega

/-- `_generate_mock_object(schema, field_name)` (lines 447-474):
`schema.get("properties", {})`, then one entry per property. -/
def generateMockObject (p : Producer) (schema : Schema) (fieldName : String) : Json :=
  .obj (generateMockProps p (schema.properties?.getD .nil) fieldName)
termination_by 3 * msize schema
decreasing_by
  have := pmsize_properties_getD_lt schema; omega

/-- The loop of `_generate_mock_object`: a preserved property with non-empty
"original_values" samples from them; otherwise the special-cased
"value"/"currency"/"sign"/"status"/"statusDesc" draws apply, and any other
property recurses with the property name as the new field-name hint. -/
def generateMockProps (p : Producer) (ps : Props) (fieldName : String) : JObj :=
  match ps with
  | .nil => .nil
  | .cons propName propSchema rest =>
    let v :=
      if propSchema.preserveOriginal && !(propSchema.originalValues?.getD []).isEmpty then
        p.choice (propSchema.originalValues?.getD [])
      else if propName = "value" && moneyFieldNames.contains fieldName.toLower then
        p.moneyValue
      else if propName = "currency" && moneyFieldNames.contains fieldName.toLower then
        p.currencyChoice
      else if propName = "sign" && ["monthchange"].contains fieldName.toLower then
        .str "%"
      else if propName = "status" && ["status"].contains fieldName.toLower then
        .num p.statusNum
      else if propName = "statusDesc" && ["status"].contains fieldName.toLower then
        .str p.statusDesc
      else
        generateMockValue p propSchema propName
    .cons propName v (generateMockProps p rest fieldName)
termination_by 3 * pmsize ps + 2
decreasing_by
  all_goals (simp [pmsize]; try omega)
end

mutual
/-- Well-formedness of a schema node as produced by the pipeline: the "type"
is one of the five tags `_analyze_structure` can emit, an "object" node
carries a "properties" dict of well-formed sub-schemas, and an "array" node
carries a well-formed "items" schema. -/
def wfSchema (s : Schema) : Bool :=
  match s with
  | .mk t p i _ _ =>
    if t = some "object" then
      match p with
      | some ps => wfProps ps
      | none => false
    else if t = some "array" then
      match i with
      | some it => wfSchema it
      | none => false
    else t == some "string" || t == some "number" || t == some "boolean"
termination_by msize s
decreasing_by
  all_goals first
    | exact pmsize_lt_of_properties rfl
    | exact msize_lt_of_items rfl

def wfProps (ps : Props) : Bool :=
  match ps with
  | .nil => true
  | .cons _ v rest => wfSchema v && wfProps rest
termination_by pmsize ps
decreasing_by
  all_goals (simp [pmsize]; try omega)
end

/-- No key occurs twice (Python dicts cannot represent duplicate keys). -/
def distinctKeys : Props → Bool
  | .nil => true
  | .cons k _ rest => (rest.lookup k).isNone && distinctKeys rest

mutual
/-- A schema dict in the exact canonical shape `_analyze_structure` builds
before any annotation: an "object" node is exactly
`{"type": "object", "properties": {...}}` with distinct keys and clean
sub-schemas, an "array" node is exactly `{"type": "array", "items": ...}`
with a clean items schema, and a node of any other "type" (on which
`_merge_structures` never rebuilds anything) is unconstrained. -/
def clean (s : Schema) : Bool :=
  match s with
  | .mk t p i pr o =>
    if t = some "object" then
      match p, i, pr, o with
      | some ps, none, false, none => cleanProps ps && distinctKeys ps
      | _, _, _, _ => false
    else if t = some "array" then
      match p, i, pr, o with
      | none, some it, false, none => clean it
      | _, _, _, _ => false
    else true
termination_by msize s
decreasing_by
  all_goals first
    | exact pmsize_lt_of_properties rfl
    | exact msize_lt_of_items rfl

def cleanProps (ps : Props) : Bool :=
  match ps with
  | .nil => true
  | .cons _ v rest => clean v && cleanProps rest
termination_by pmsize ps
decreasing_by
  all_goals (simp [pmsize]; try omega)
end

theorem wfSchema_mk_object (ps : Props) (i : Option Schema) (pr : Bool)
    (o : Option (List Json)) :
    wfSchema (.mk (some "object") (some ps) i pr o) = wfProps ps := by
  rw [wfSchema.eq_def]; simp

theorem wfSchema_mk_array (p : Option Props) (it : Schema) (pr : Bool)
    (o : Option (List Json)) :
    wfSchema (.mk (some "array") p (some it) pr o) = wfSchema it := by
  rw [wfSchema.eq_def]; simp

theorem wfSchema_objectE {s : Schema} (ht : s.type? = some "object")
    (hw : wfSchema s = true) : ∃ ps, s.properties? = some ps ∧ wfProps ps = true := by
  rcases s with ⟨t, p, i, pr, o⟩
  simp only [Schema.type?] at ht
  subst ht
  cases p with
  | none => rw [wfSchema.eq_def] at hw; simp at hw
  | some ps =>
    rw [wfSchema.eq_def] at hw; simp at hw
    exact ⟨ps, rfl, hw⟩

theorem wfSchema_arrayE {s : Schema} (ht : s.type? = some "array")
    (hw : wfSchema s = true) : ∃ it, s.items? = some it ∧ wfSchema it = true := by
  rcases s with ⟨t, p, i, pr, o⟩
  simp only [Schema.type?] at ht
  subst ht
  cases i with
  | none => rw [wfSchema.eq_def] at hw; simp at hw
  | some it =>
    rw [wfSchema.eq_def] at hw; simp at hw
    exact ⟨it, rfl, hw⟩

theorem wfProps_nil : wfProps .nil = true := by
  rw [wfProps.eq_def]

theorem wfProps_cons_iff (k : String) (v : Schema) (rest : Props) :
    wfProps (.cons k v rest) = (wfSchema v && wfProps rest) := by
  rw [wfProps.eq_def]

theorem wfProps_lookup : ∀ {ps : Props} {k : String} {v : Schema},
    ps.lookup k = some v → wfProps ps = true → wfSchema v = true
  | .nil, _, _, h, _ => by simp [Props.lookup] at h
  | .cons k1 v1 rest, k, v, h, hw => by
    rw [wfProps_cons_iff] at hw
    simp only [Props.lookup] at h
    split at h
    · injection h with h; subst h; exact (Bool.and_eq_true .. ▸ hw).1
    · exact wfProps_lookup h (Bool.and_eq_true .. ▸ hw).2

theorem wfProps_append : ∀ {p q : Props},
    wfProps p = true → wfProps q = true → wfProps (p.append q) = true
  | .nil, q, _, hq => by rw [Props.append]; exact hq
  | .cons k v rest, q, hp, hq => by
    rw [wfProps_cons_iff] at hp
    rw [Props.append, wfProps_cons_iff]
    have := Bool.and_eq_true .. ▸ hp
    exact Bool.and_eq_true .. ▸ ⟨this.1, wfProps_append this.2 hq⟩

mutual
/-- Merging two well-formed schemas yields a well-formed schema. -/
theorem wf_mergeStructures (s1 s2 : Schema) (h1 : wfSchema s1 = true)
    (h2 : wfSchema s2 = true) : wfSchema (mergeStructures s1 s2) = true := by
  rw [mergeStructures.eq_def]
  split_ifs with hne hstr hobj harr
  · exact h1
  · exact h2
  · have heq : s1.type? = s2.type? := Decidable.not_not.mp hne
    have ht2 : s2.type? = some "object" := by rw [← heq]; exact hobj
    obtain ⟨ps1, hp1, hw1⟩ := wfSchema_objectE hobj h1
    obtain ⟨ps2, hp2, hw2⟩ := wfSchema_objectE ht2 h2
    show wfSchema (.mk (some "object")
      (some ((mergeUpdated (s1.properties?.getD .nil) (s2.properties?.getD .nil)).append
        (mergeFresh (s1.properties?.getD .nil) (s2.properties?.getD .nil)))) none false none) = true
    rw [wfSchema_mk_object, hp1, hp2]
    simp only [Option.getD_some]
    exact wfProps_append (wf_mergeUpdated ps1 ps2 hw1 hw2) (wf_mergeFresh ps1 ps2 hw2)
  · have heq : s1.type? = s2.type? := Decidable.not_not.mp hne
    have ht2 : s2.type? = some "array" := by rw [← heq]; exact harr
    obtain ⟨it1, hi1, hw1⟩ := wfSchema_arrayE harr h1
    obtain ⟨it2, hi2, hw2⟩ := wfSchema_arrayE ht2 h2
    show wfSchema (.mk (some "array") none
      (some (mergeStructures (s1.items?.getD (leafSchema "string"))
        (s2.items?.getD (leafSchema "string")))) false none) = true
    rw [wfSchema_mk_array, hi1, hi2]
    simp only [Option.getD_some]
    exact wf_mergeStructures it1 it2 hw1 hw2
  · exact h1
termination_by msize s1 + msize s2
decreasing_by
  all_goals first
    | exact Nat.add_lt_add (pmsize_lt_of_properties hp1) (pmsize_lt_of_properties hp2)
    | exact Nat.add_lt_add (msize_lt_of_items hi1) (msize_lt_of_items hi2)


theorem wf_mergeUpdated (base other : Props) (hb : wfProps base = true)
    (ho : wfProps other = true) : wfProps (mergeUpdated base other) = true := by
  cases base with
  | nil => simp only [mergeUpdated]; exact wfProps_nil
  | cons k v rest =>
    rw [wfProps_cons_iff] at hb
    have hb' := Bool.and_eq_true .. ▸ hb
    rcases hv2 : other.lookup k with _ | v2
    · have hstep : mergeUpdated (.cons k v rest) other = .cons k v (mergeUpdated rest other) := by
        simp only [mergeUpdated]
        split <;> simp_all
      rw [hstep, wfProps_cons_iff]
      exact Bool.and_eq_true .. ▸ ⟨hb'.1, wf_mergeUpdated rest other hb'.2 ho⟩
    · have hstep : mergeUpdated (.cons k v rest) other
          = .cons k (mergeStructures v v2) (mergeUpdated rest other) := by
        simp only [mergeUpdated]
        split <;> simp_all
      rw [hstep, wfProps_cons_iff]
      refine Bool.and_eq_true .. ▸ ⟨?_, wf_mergeUpdated rest other hb'.2 ho⟩
      exact wf_mergeStructures v v2 hb'.1 (wfProps_lookup hv2 ho)
termination_by pmsize base + pmsize other
decreasing_by
  all_goals subst_vars
  all_goals first
    | (have hq := pmsize_lookup_lt hv2; simp [pmsize]; omega)
    | (simp [pmsize]; try omega)

theorem wf_mergeFresh (base other : Props) (ho : wfProps other = true) :
    wfProps (mergeFresh base other) = true := by
  cases other with
  | nil => simp only [mergeFresh]; exact wfProps_nil
  | cons k v rest =>
    simp only [mergeFresh]
    rw [wfProps_cons_iff] at ho
    have ho' := Bool.and_eq_true .. ▸ ho
    split
    · rw [wfProps_cons_iff]
      exact Bool.and_eq_true .. ▸ ⟨ho'.1, wf_mergeFresh base rest ho'.2⟩
    · exact wf_mergeFresh base rest ho'.2
termination_by pmsize base + pmsize other
decreasing_by
  all_goals subst_vars
  all_goals (simp [pmsize]; try omega)
end

theorem analyzeStructure_zero (v : Json) : analyzeStructure v 0 = leafSchema "string" := by
  rw [analyzeStructure.eq_def]; simp

theorem analyzeStructure_obj {d : Nat} (h : d ≠ 0) (fields : JObj) :
    analyzeStructure (.obj fields) d
      = .mk (some "object") (some (analyzeProps fields (d - 1))) none false none := by
  rw [analyzeStructure.eq_def]; simp [h]

theorem analyzeStructure_arrNil {d : Nat} (h : d ≠ 0) :
    analyzeStructure (.arr .nil) d = emptyArraySchema := by
  rw [analyzeStructure.eq_def]; simp [h]

theorem analyzeStructure_arrCons {d : Nat} (h : d ≠ 0) (x : Json) (xs : JList) :
    analyzeStructure (.arr (.cons x xs)) d
      = .mk (some "array") none
          (some (analyzeItems (analyzeStructure x (d - 1)) xs (d - 1))) false none := by
  rw [analyzeStructure.eq_def]; simp [h]

theorem analyzeStructure_bool {d : Nat} (h : d ≠ 0) (b : Bool) :
    analyzeStructure (.bool b) d = leafSchema "boolean" := by
  rw [analyzeStructure.eq_def]; simp [h]

theorem analyzeStructure_num {d : Nat} (h : d ≠ 0) (n : Int) :
    analyzeStructure (.num n) d = leafSchema "number" := by
  rw [analyzeStructure.eq_def]; simp [h]

theorem analyzeStructure_str {d : Nat} (h : d ≠ 0) (t : String) :
    analyzeStructure (.str t) d = leafSchema "string" := by
  rw [analyzeStructure.eq_def]; simp [h]

theorem analyzeStructure_null {d : Nat} (h : d ≠ 0) :
    analyzeStructure .null d = leafSchema "string" := by
  rw [analyzeStructure.eq_def]; simp [h]

theorem analyzeProps_nil (d : Nat) : analyzeProps .nil d = .nil := by
  rw [analyzeProps.eq_def]

theorem analyzeProps_cons (k : String) (v : Json) (rest : JObj) (d : Nat) :
    analyzeProps (.cons k v rest) d
      = .cons k (analyzeStructure v d) (analyzeProps rest d) := by
  rw [analyzeProps.eq_def]

theorem analyzeItems_nil (acc : Schema) (d : Nat) : analyzeItems acc .nil d = acc := by
  rw [analyzeItems.eq_def]

theorem analyzeItems_cons (acc : Schema) (y : Json) (ys : JList) (d : Nat) :
    analyzeItems acc (.cons y ys) d
      = analyzeItems (mergeStructures acc (analyzeStructure y d)) ys d := by
  rw [analyzeItems.eq_def]

theorem wf_leafString : wfSchema (leafSchema "string") = true := by
  rw [leafSchema, wfSchema.eq_def]; simp

theorem wf_leafNumber : wfSchema (leafSchema "number") = true := by
  rw [leafSchema, wfSchema.eq_def]; simp

theorem wf_leafBoolean : wfSchema (leafSchema "boolean") = true := by
  rw [leafSchema, wfSchema.eq_def]; simp

theorem wf_emptyArraySchema : wfSchema emptyArraySchema = true := by
  rw [emptyArraySchema, wfSchema_mk_array, wfSchema_mk_object]
  exact wfProps_nil

mutual
/-- Every schema `_analyze_structure` produces is well-formed. -/
theorem wf_analyzeStructure (v : Json) (d : Nat) :
    wfSchema (analyzeStructure v d) = true := by
  by_cases h0 : d = 0
  · subst h0; rw [analyzeStructure_zero]; exact wf_leafString
  · cases v with
    | obj fields =>
      rw [analyzeStructure_obj h0, wfSchema_mk_object]
      exact wf_analyzeProps fields (d - 1)
    | arr xs =>
      cases xs with
      | nil => rw [analyzeStructure_arrNil h0]; exact wf_emptyArraySchema
      | cons x rest =>
        rw [analyzeStructure_arrCons h0, wfSchema_mk_array]
        exact wf_analyzeItems (analyzeStructure x (d - 1)) rest (d - 1)
          (wf_analyzeStructure x (d - 1))
    | bool b => rw [analyzeStructure_bool h0]; exact wf_leafBoolean
    | num n => rw [analyzeStructure_num h0]; exact wf_leafNumber
    | str t => rw [analyzeStructure_str h0]; exact wf_leafString
    | null => rw [analyzeStructure_null h0]; exact wf_leafString
termination_by sizeOf v

theorem wf_analyzeProps (fields : JObj) (d : Nat) :
    wfProps (analyzeProps fields d) = true := by
  cases fields with
  | nil => rw [analyzeProps_nil]; exact wfProps_nil
  | cons k v rest =>
    rw [analyzeProps_cons, wfProps_cons_iff]
    exact Bool.and_eq_true .. ▸ ⟨wf_analyzeStructure v d, wf_analyzeProps rest d⟩
termination_by sizeOf fields

theorem wf_analyzeItems (acc : Schema) (xs : JList) (d : Nat)
    (h : wfSchema acc = true) : wfSchema (analyzeItems acc xs d) = true := by
  cases xs with
  | nil => rw [analyzeItems_nil]; exact h
  | cons y ys =>
    rw [analyzeItems_cons]
    exact wf_analyzeItems (mergeStructures acc (analyzeStructure y d)) ys d
      (wf_mergeStructures acc (analyzeStructure y d) h (wf_analyzeStructure y d))
termination_by sizeOf xs
end

theorem Props.lookup_nil (k : String) : Props.lookup .nil k = none := by
  simp only [Props.lookup]

theorem Props.lookup_cons (k1 : String) (v1 : Schema) (rest : Props) (k : String) :
    Props.lookup (.cons k1 v1 rest) k
      = if k1 = k then some v1 else rest.lookup k := by
  simp only [Props.lookup]

theorem Props.append_nil : ∀ p : Props, p.append .nil = p
  | .nil => by simp only [Props.append]
  | .cons k v rest => by
    simp only [Props.append]
    rw [Props.append_nil rest]

theorem lookup_append : ∀ (p q : Props) (k : String),
    (p.append q).lookup k
      = match p.lookup k with
        | some v => some v
        | none => q.lookup k
  | .nil, q, k => by simp only [Props.append]; rw [Props.lookup_nil]
  | .cons k1 v1 rest, q, k => by
    simp only [Props.append]
    rw [Props.lookup_cons, Props.lookup_cons]
    by_cases h : k1 = k
    · simp [h]
    · simp [h, lookup_append rest q k]

theorem lookup_mergeUpdated : ∀ (base other : Props) (k : String),
    (mergeUpdated base other).lookup k
      = match base.lookup k with
        | some v =>
          some (match other.lookup k with
                | some v2 => mergeStructures v v2
                | none => v)
        | none => none
  | .nil, other, k => by
    simp only [mergeUpdated]
    rw [Props.lookup_nil]
  | .cons k1 v1 rest, other, k => by
    rcases hv2 : other.lookup k1 with _ | v2
    · have hstep : mergeUpdated (.cons k1 v1 rest) other
          = .cons k1 v1 (mergeUpdated rest other) := by
        simp only [mergeUpdated]
        split <;> simp_all
      rw [hstep, Props.lookup_cons, Props.lookup_cons]
      by_cases h : k1 = k
      · subst h; simp [hv2]
      · simp [h, lookup_mergeUpdated rest other k]
    · have hstep : mergeUpdated (.cons k1 v1 rest) other
          = .cons k1 (mergeStructures v1 v2) (mergeUpdated rest other) := by
        simp only [mergeUpdated]
        split <;> simp_all
      rw [hstep, Props.lookup_cons, Props.lookup_cons]
      by_cases h : k1 = k
      · subst h; simp [hv2]
      · simp [h, lookup_mergeUpdated rest other k]

theorem lookup_mergeFresh : ∀ (base other : Props) (k : String),
    (mergeFresh base other).lookup k
      = if (base.lookup k).isNone then other.lookup k else none
  | base, .nil, k => by
    simp only [mergeFresh]
    rw [Props.lookup_nil]
    split <;> rfl
  | base, .cons k1 v1 rest, k => by
    simp only [mergeFresh]
    rw [Props.lookup_cons]
    by_cases hk : k1 = k
    · subst hk
      by_cases hb : (base.lookup k1).isNone
      · simp [hb, Props.lookup_cons]
      · simp [hb, lookup_mergeFresh base rest k1]
    · by_cases hb : (base.lookup k1).isNone
      · simp [hb, Props.lookup_cons, hk, lookup_mergeFresh base rest k]
      · simp [hb, lookup_mergeFresh base rest k, hk]

theorem merge_object_step {a b : Schema} {pa pb : Props}
    (hta : a.type? = some "object") (htb : b.type? = some "object")
    (hpa : a.properties? = some pa) (hpb : b.properties? = some pb) :
    mergeStructures a b
      = .mk (some "object")
          (some ((mergeUpdated pa pb).append (mergeFresh pa pb))) none false none := by
  rw [mergeStructures.eq_def]
  have heq : a.type? = b.type? := by rw [hta, htb]
  rw [if_neg (by simp [heq])]
  rw [if_pos hta]
  simp [hpa, hpb]

theorem merge_array_step {a b : Schema} {ia ib : Schema}
    (hta : a.type? = some "array") (htb : b.type? = some "array")
    (hia : a.items? = some ia) (hib : b.items? = some ib) :
    mergeStructures a b
      = .mk (some "array") none (some (mergeStructures ia ib)) false none := by
  rw [mergeStructures.eq_def]
  have heq : a.type? = b.type? := by rw [hta, htb]
  rw [if_neg (by simp [heq])]
  rw [if_neg (by simp [hta])]
  rw [dif_pos hta]
  simp [hia, hib]

theorem merge_leaf_step {a b : Schema}
    (heq : a.type? = b.type?) (hobj : a.type? ≠ some "object")
    (harr : a.type? ≠ some "array") : mergeStructures a b = a := by
  rw [mergeStructures.eq_def]
  rw [if_neg (by simp [heq])]
  rw [if_neg hobj]
  rw [dif_neg harr]

theorem cleanProps_nil : cleanProps .nil = true := by
  rw [cleanProps.eq_def]

theorem cleanProps_cons_iff (k : String) (v : Schema) (rest : Props) :
    cleanProps (.cons k v rest) = (clean v && cleanProps rest) := by
  rw [cleanProps.eq_def]

theorem distinctKeys_cons_iff (k : String) (v : Schema) (rest : Props) :
    distinctKeys (.cons k v rest) = ((rest.lookup k).isNone && distinctKeys rest) := by
  simp only [distinctKeys]

theorem cleanE_object {s : Schema} (ht : s.type? = some "object") (hc : clean s = true) :
    ∃ ps, s = .mk (some "object") (some ps) none false none
      ∧ cleanProps ps = true ∧ distinctKeys ps = true := by
  rcases s with ⟨t, p, i, pr, o⟩
  simp only [Schema.type?] at ht
  subst ht
  cases p <;> cases i <;> cases pr <;> cases o <;>
    (rw [clean.eq_def] at hc; simp_all)

theorem cleanE_array {s : Schema} (ht : s.type? = some "array") (hc : clean s = true) :
    ∃ it, s = .mk (some "array") none (some it) false none ∧ clean it = true := by
  rcases s with ⟨t, p, i, pr, o⟩
  simp only [Schema.type?] at ht
  subst ht
  cases p <;> cases i <;> cases pr <;> cases o <;>
    (rw [clean.eq_def] at hc; simp_all)

theorem mergeFresh_self : ∀ (base other : Props),
    (∀ k, (other.lookup k).isSome = true → (base.lookup k).isSome = true) →
    mergeFresh base other = .nil
  | base, .nil, _ => by simp only [mergeFresh]
  | base, .cons k1 v1 rest, h => by
    simp only [mergeFresh]
    have hk1 : (base.lookup k1).isSome = true := by
      apply h
      rw [Props.lookup_cons]
      simp
    rcases hbk : base.lookup k1 with _ | w
    · rw [hbk] at hk1; cases hk1
    rw [if_neg (by simp [hbk])]
    apply mergeFresh_self base rest
    intro k hk
    apply h
    rw [Props.lookup_cons]
    by_cases hkk : k1 = k <;> simp [hkk, hk]

mutual
/-- On a clean schema, merging a node with itself gives it back unchanged. -/
theorem clean_merge_self (s : Schema) (hc : clean s = true) :
    mergeStructures s s = s := by
  by_cases hobj : s.type? = some "object"
  · obtain ⟨ps, hs, hps, hd⟩ := cleanE_object hobj hc
    subst hs
    have hta : (Schema.mk (some "object") (some ps) none false none).type? = some "object" := rfl
    rw [merge_object_step hta hta rfl rfl]
    rw [clean_mergeUpdated_self ps ps hps hd (fun k v h => h)]
    rw [mergeFresh_self ps ps (fun k h => h)]
    rw [Props.append_nil]
  · by_cases harr : s.type? = some "array"
    · obtain ⟨it, hs, hit⟩ := cleanE_array harr hc
      subst hs
      have hta : (Schema.mk (some "array") none (some it) false none).type? = some "array" := rfl
      rw [merge_array_step hta hta rfl rfl]
      rw [clean_merge_self it hit]
    · exact merge_leaf_step rfl hobj harr
termination_by 2 * msize s
decreasing_by
  all_goals subst_vars
  all_goals first
    | (have hps2 : (Schema.mk (some "object") (some ps) none false none).properties?
         = some ps := rfl
       have hq := pmsize_lt_of_properties hps2
       omega)
    | (have his2 : (Schema.mk (some "array") none (some it) false none).items?
         = some it := rfl
       have hq := msize_lt_of_items his2
       omega)

/-- The per-key step of self-merging: when every entry of `base` also first
occurs with the same value in `other` and `base` is clean with distinct keys,
updating `base` against `other` changes nothing. -/
theorem clean_mergeUpdated_self (base other : Props) (hc : cleanProps base = true)
    (hd : distinctKeys base = true)
    (hsub : ∀ k v, base.lookup k = some v → other.lookup k = some v) :
    mergeUpdated base other = base := by
  cases base with
  | nil => simp only [mergeUpdated]
  | cons k v rest =>
    rw [cleanProps_cons_iff] at hc
    have hc' := Bool.and_eq_true .. ▸ hc
    rw [distinctKeys_cons_iff] at hd
    have hd' := Bool.and_eq_true .. ▸ hd
    have hkv : other.lookup k = some v := by
      apply hsub
      rw [Props.lookup_cons]
      simp
    have hstep : mergeUpdated (.cons k v rest) other
        = .cons k (mergeStructures v v) (mergeUpdated rest other) := by
      simp only [mergeUpdated]
      split <;> simp_all
    rw [hstep]
    rw [clean_merge_self v hc'.1]
    rw [clean_mergeUpdated_self rest other hc'.2 hd'.2]
    intro k1 v1 h1
    apply hsub
    rw [Props.lookup_cons]
    have hne : k ≠ k1 := by
      intro hkk
      subst hkk
      rw [Option.isNone_iff_eq_none.mp hd'.1] at h1
      cases h1
    simp [hne, h1]
termination_by 2 * pmsize base + 1
decreasing_by
  all_goals subst_vars
  all_goals (simp [pmsize]; try omega)
end

/-- Accessors of a functional properties update. -/
theorem setProperties_fields (s : Schema) (p : Option Props) :
    (s.setProperties p).type? = s.type? ∧ (s.setProperties p).properties? = p ∧
    (s.setProperties p).items? = s.items? ∧
    (s.setProperties p).preserveOriginal = s.preserveOriginal ∧
    (s.setProperties p).originalValues? = s.originalValues? := by
  rcases s with ⟨t, p0, i, pr, o⟩
  exact ⟨rfl, rfl, rfl, rfl, rfl⟩

/-- Accessors of a functional items update. -/
theorem setItems_fields (s : Schema) (i : Option Schema) :
    (s.setItems i).type? = s.type? ∧ (s.setItems i).properties? = s.properties? ∧
    (s.setItems i).items? = i ∧
    (s.setItems i).preserveOriginal = s.preserveOriginal ∧
    (s.setItems i).originalValues? = s.originalValues? := by
  rcases s with ⟨t, p, i0, pr, o⟩
  exact ⟨rfl, rfl, rfl, rfl, rfl⟩

/-- Accessors of a preserve-marked node. -/
theorem markPreserved_fields (name : String) (examples : List Json) (child : Schema) :
    (markPreserved name examples child).type? = child.type? ∧
    (markPreserved name examples child).properties? = child.properties? ∧
    (markPreserved name examples child).items? = child.items? ∧
    (markPreserved name examples child).preserveOriginal = true ∧
    (markPreserved name examples child).originalValues?
      = (if (extractOriginalValues name examples).isEmpty then child.originalValues?
         else some (extractOriginalValues name examples)) := by
  rcases child with ⟨t, p, i, pr, o⟩
  refine ⟨rfl, rfl, rfl, rfl, ?_⟩
  simp only [markPreserved, Schema.originalValues?]

/-- `_add_preserved_field_info` never touches the annotation fields of the
node it is handed, only those of the nodes below it. -/
theorem addPreserved_keeps_annotations (s : Schema) (examples : List Json) :
    (addPreservedFieldInfo s examples).preserveOriginal = s.preserveOriginal ∧
    (addPreservedFieldInfo s examples).originalValues? = s.originalValues? := by
  rw [addPreservedFieldInfo.eq_def]
  split_ifs with hobj harr hne
  · split
    · exact ⟨rfl, rfl⟩
    · exact ⟨(setProperties_fields ..).2.2.2.1, (setProperties_fields ..).2.2.2.2⟩
  · exact ⟨rfl, rfl⟩
  · split
    · exact ⟨(setItems_fields ..).2.2.2.1, (setItems_fields ..).2.2.2.2⟩
    · exact ⟨rfl, rfl⟩
  · exact ⟨rfl, rfl⟩

/-- Under annotation the properties dict of the result is the entrywise
image of the original, so lookups transport. -/
theorem lookup_annotateProps : ∀ (ps : Props) (examples : List Json) (k : String),
    (annotateProps ps examples).lookup k
      = (ps.lookup k).map (fun c => annotateChild k c examples)
  | .nil, examples, k => by
    simp only [annotateProps]
    rw [Props.lookup_nil]
    rfl
  | .cons name child rest, examples, k => by
    simp only [annotateProps]
    rw [Props.lookup_cons, Props.lookup_cons]
    by_cases h : name = k
    · subst h; simp [annotateChild]
    · simp [h, lookup_annotateProps rest examples k]

/-- `annotateChildCore` never touches the node's own annotation fields. -/
theorem annotateChildCore_keeps_annotations (name : String) (c1 : Schema)
    (examples : List Json) :
    (annotateChildCore name c1 examples).preserveOriginal = c1.preserveOriginal ∧
    (annotateChildCore name c1 examples).originalValues? = c1.originalValues? := by
  rw [annotateChildCore.eq_def]
  split_ifs with hobj hne harr hae
  · exact ⟨rfl, rfl⟩
  · exact ⟨(addPreserved_keeps_annotations ..).1, (addPreserved_keeps_annotations ..).2⟩
  · exact ⟨rfl, rfl⟩
  · split
    · exact ⟨(setItems_fields ..).2.2.2.1, (setItems_fields ..).2.2.2.2⟩
    · exact ⟨rfl, rfl⟩
  · exact ⟨rfl, rfl⟩

/-- What annotation does to the top-level annotation fields of a property
whose name is in the preserve set. -/
theorem annotateChild_preserved (name : String) (child : Schema)
    (examples : List Json) (hpre : shouldPreserveField name = true) :
    (annotateChild name child examples).preserveOriginal = true ∧
    (annotateChild name child examples).originalValues?
      = (if (extractOriginalValues name examples).isEmpty then child.originalValues?
         else some (extractOriginalValues name examples)) := by
  rw [annotateChild]
  rw [if_pos hpre]
  have hk := annotateChildCore_keeps_annotations name (markPreserved name examples child) examples
  have hm := markPreserved_fields name examples child
  exact ⟨hk.1.trans hm.2.2.2.1, hk.2.trans hm.2.2.2.2⟩

/-- The sequence of values of field `name` across the mapping examples, in
corpus order (the spec's words; non-mappings contribute nothing). -/
def specFieldValues (name : String) (examples : List Json) : List Json :=
  examples.filterMap (fun e =>
    match e with
    | .obj fields => fields.lookup name
    | _ => none)

/-- Deduplication by value equality keeping first occurrences, in order (the
spec's words). -/
def specDedup : List Json → List Json
  | [] => []
  | v :: rest => v :: specDedup (rest.filter (fun w => w ≠ v))
termination_by l => l.length
decreasing_by
  simp only [List.length_cons]
  exact Nat.lt_succ_of_le (List.length_filter_le _ _)

/-- The accumulator loop of `_extract_original_values`, separated from the
per-example field extraction. -/
def dedupAppend (seen : List Json) : List Json → List Json
  | [] => seen
  | v :: rest => dedupAppend (if v ∈ seen then seen else seen ++ [v]) rest

theorem specDedup_nil : specDedup [] = [] := by
  simp [specDedup]

theorem specDedup_cons (v : Json) (rest : List Json) :
    specDedup (v :: rest) = v :: specDedup (rest.filter (fun w => w ≠ v)) := by
  simp [specDedup]

theorem extractOriginalValuesAux_dedupAppend :
    ∀ (examples : List Json) (name : String) (values : List Json),
    extractOriginalValuesAux name values examples
      = dedupAppend values (specFieldValues name examples)
  | [], name, values => by
    simp [extractOriginalValuesAux, specFieldValues, dedupAppend]
  | e :: rest, name, values => by
    cases e with
    | obj fields =>
      rcases hv : fields.lookup name with _ | v
      · simp only [extractOriginalValuesAux, hv, specFieldValues, List.filterMap_cons]
        exact extractOriginalValuesAux_dedupAppend rest name values
      · simp only [extractOriginalValuesAux, hv, specFieldValues, List.filterMap_cons]
        rw [extractOriginalValuesAux_dedupAppend rest name _]
        rw [dedupAppend]
        rfl
    | null => exact extractOriginalValuesAux_dedupAppend rest name values
    | bool b => exact extractOriginalValuesAux_dedupAppend rest name values
    | num n => exact extractOriginalValuesAux_dedupAppend rest name values
    | str t => exact extractOriginalValuesAux_dedupAppend rest name values
    | arr xs => exact extractOriginalValuesAux_dedupAppend rest name values

theorem dedupAppend_spec : ∀ (l : List Json) (seen : List Json),
    dedupAppend seen l = seen ++ specDedup (l.filter (fun v => decide (v ∉ seen)))
  | [], seen => by simp [dedupAppend, specDedup_nil]
  | v :: rest, seen => by
    by_cases h : v ∈ seen
    · rw [dedupAppend, if_pos h]
      rw [dedupAppend_spec rest seen]
      simp [List.filter_cons, h]
    · rw [dedupAppend, if_neg h]
      rw [dedupAppend_spec rest (seen ++ [v])]
      have hfilter : rest.filter (fun w => decide (w ∉ seen ++ [v]))
          = (rest.filter (fun w => decide (w ∉ seen))).filter (fun w => w ≠ v) := by
        rw [List.filter_filter]
        apply List.filter_congr
        intro w _
        by_cases h1 : w = v <;> by_cases h2 : w ∈ seen <;>
          simp [h1, h2, List.mem_append]
      rw [hfilter]
      have hcons : (v :: rest).filter (fun w => decide (w ∉ seen))
          = v :: rest.filter (fun w => decide (w ∉ seen)) := by
        simp [List.filter_cons, h]
      rw [hcons, specDedup_cons]
      simp

/-- `_extract_original_values` computes exactly the spec's description:
the values of the field across the mapping examples, deduplicated by value
equality in first-occurrence order. -/
theorem extractOriginalValues_spec (name : String) (examples : List Json) :
    extractOriginalValues name examples = specDedup (specFieldValues name examples) := by
  rw [extractOriginalValues, extractOriginalValuesAux_dedupAppend, dedupAppend_spec]
  simp

/-- A fixed instantiation of the randomness/fabrication oracle, used to
evaluate the synthesizer at concrete inputs. -/
def trivialProducer : Producer where
  mockString := fun _ => "mock"
  mockNumber := fun _ => .num 0
  mockBool := true
  choice := fun l => l.headD .null
  arrayLen := 2
  moneyValue := .num 1000
  currencyChoice := .str "c"
  statusNum := 0
  statusDesc := "Active"

/-- Claim C1 (code bug in schema_analyzer.py): the claim says `analyze` and
`merge` terminate and return a node without raising for every well-formed
input, in particular for lists with two or more elements.  The
`SchemaAnalyzer` class breaks this: all its internal merge call sites invoke
`self._merge_structures`, but the class only defines `merge_structures`, so
`_analyze_structure([1, 2])` — and `analyze_structure` over a corpus of two
examples — raises `AttributeError` (the identical code in
`MockDataGenerator`, embedded as `analyzeStructure`, works because that
class does define `_merge_structures`).  This theorem evaluates the embedded
`SchemaAnalyzer` methods at the failing inputs. -/
theorem sa_analyze_raises_attribute_error :
    saAnalyzeValue (.arr (.cons (.num 1) (.cons (.num 2) .nil))) 10
      = .error .attributeError ∧
    saAnalyzeStructure [] [.obj (.cons "a" (.num 1) .nil), .obj (.cons "a" (.num 2) .nil)] "k"
      = .error .attributeError := by
  constructor
  · simp [saAnalyzeValue, saAnalyzeItemList, Bind.bind, Except.bind]
  · simp [saAnalyzeStructure, SchemaCache.getSchema, saAnalyzeValue, saAnalyzeProps,
      Bind.bind, Except.bind]

/-- Claim C2, counterexample: the claim says analyzing `null` yields a `Null`
leaf node and never a `String` node.  `_analyze_structure` has no null branch
and no "null" type tag at all: `None` matches none of dict, list, bool,
int/float, str and falls into the final catch-all, so analyzing `null` at the
default depth 10 yields exactly the `String` leaf `{"type": "string"}`. -/
theorem analyze_null_yields_string_counterexample :
    analyzeStructure .null 10 = leafSchema "string" ∧
    (analyzeStructure .null 10).type? = some "string" := by
  constructor
  · exact analyzeStructure_null (by decide)
  · rw [analyzeStructure_null (by decide)]; rfl

/-- Claim C2, amended: for every `maxDepth`, analyzing the null value yields
the `String` leaf `{"type": "string"}` (the code has no `Null` leaf kind;
`None` takes the catch-all string branch, and the depth guard returns the
same leaf). -/
theorem analyze_null_amended (d : Nat) : analyzeStructure .null d = leafSchema "string" := by
  by_cases h : d = 0
  · subst h; exact analyzeStructure_zero .null
  · exact analyzeStructure_null h

/-- Claim C3, counterexample: the claim says the synthesizer raises
`SchemaMalformedError` on a malformed node (e.g. kind `Object` without a
properties map) rather than silently producing partial output.  No class
named `SchemaMalformedError` exists anywhere in the repository and
`generate_mock_value`/`_generate_mock_object` contain no raise statement:
`{"type": "object"}` without a "properties" key makes
`_generate_mock_object` iterate over the `schema.get("properties", {})`
default and silently return the empty partial object `{}` — the embedded
synthesizer is a total function and returns `{}` here. -/
theorem synthesize_malformed_returns_empty_counterexample :
    generateMockValue trivialProducer (.mk (some "object") none none false none) ""
      = .obj .nil := by
  rw [generateMockValue.eq_def]
  simp [Schema.preserveOriginal, Schema.originalValues?, Schema.type?, trivialProducer]
  rw [generateMockObject.eq_def]
  simp [Schema.properties?]
  rw [generateMockProps.eq_def]

/-- Claim C3, amended: the synthesizer never raises on a malformed schema
node; a kind/payload mismatch is silently tolerated through dict defaults —
an "object" node without "properties" yields the empty mapping, for every
oracle, and an "array" node without "items" fabricates items from the
default `{"type": "string"}` schema. -/
theorem synthesize_malformed_silent :
    (∀ (p : Producer) (hint : String),
      generateMockValue p (.mk (some "object") none none false none) hint = .obj .nil) ∧
    (∀ (p : Producer) (hint : String),
      generateMockValue p (.mk (some "array") none none false none) hint
        = .arr (JList.replicate p.arrayLen (.str (p.mockString hint)))) := by
  constructor
  · intro p hint
    rw [generateMockValue.eq_def]
    simp [Schema.preserveOriginal, Schema.originalValues?, Schema.type?]
    rw [generateMockObject.eq_def]
    simp [Schema.properties?]
    rw [generateMockProps.eq_def]
  · intro p hint
    rw [generateMockValue.eq_def]
    simp [Schema.preserveOriginal, Schema.originalValues?, Schema.type?]
    rw [generateMockArray.eq_def]
    simp [Schema.items?, leafSchema]
    rw [generateMockValue.eq_def]
    simp [Schema.preserveOriginal, Schema.originalValues?, Schema.type?]

/-- Claim C4: when the two kinds differ, `_merge_structures` returns the
operand whose kind is not "string" — the left operand whenever its kind is
not "string" (in particular when neither kind is "string"), and the right
operand when the left is a "string" leaf. -/
theorem merge_kind_mismatch (a b : Schema) (h : a.type? ≠ b.type?) :
    mergeStructures a b = if a.type? ≠ some "string" then a else b := by
  rw [mergeStructures.eq_def]
  rw [if_pos h]

/-- Claim C4, witness: a `String` leaf merged with a `Number` leaf yields the
`Number` leaf. -/
theorem merge_kind_mismatch_witness :
    mergeStructures (leafSchema "string") (leafSchema "number") = leafSchema "number" := by
  have h := merge_kind_mismatch (leafSchema "string") (leafSchema "number")
    (by simp [leafSchema, Schema.type?])
  simpa [leafSchema, Schema.type?] using h

/-- Claim C6, counterexample: the claim says `merge(x, x)` is structurally
equal to `x` for every node with no String/non-String ambiguity.  An
annotated object node — as the Preservation Annotator produces for an
object-typed property whose name is in the preserve set — contains no
String ambiguity at all, yet merging it with itself rebuilds a fresh
`{"type": "object", "properties": ...}` dict and silently drops the
`preserve_original` annotation, so the result is not equal to `x`. -/
theorem merge_self_annotated_counterexample :
    mergeStructures (.mk (some "object") (some .nil) none true none)
        (.mk (some "object") (some .nil) none true none)
      ≠ .mk (some "object") (some .nil) none true none := by
  have hta : (Schema.mk (some "object") (some Props.nil) none true none).type?
      = some "object" := rfl
  rw [merge_object_step hta hta rfl rfl]
  intro h
  injection h with h1 h2 h3 h4 h5
  cases h4

/-- Claim C6, amended: `merge(x, x)` is structurally equal to `x` for every
node `x` in the canonical un-annotated shape the Analyzer builds (each
object node exactly `{"type": "object", "properties": {...}}` with distinct
keys, each array node exactly `{"type": "array", "items": ...}`, no
annotation fields anywhere above a leaf); on annotated or payload-defaulted
object/array nodes merge instead rewrites them to that canonical shape. -/
theorem merge_idempotent_on_clean (x : Schema) (h : clean x = true) :
    mergeStructures x x = x :=
  clean_merge_self x h

/-- Claim C6, witness: self-merge of the analyzed schema of `{"a": 1}`. -/
theorem merge_idempotent_on_clean_witness :
    mergeStructures
        (.mk (some "object") (some (.cons "a" (leafSchema "number") .nil)) none false none)
        (.mk (some "object") (some (.cons "a" (leafSchema "number") .nil)) none false none)
      = .mk (some "object") (some (.cons "a" (leafSchema "number") .nil)) none false none := by
  apply merge_idempotent_on_clean
  rw [clean.eq_def]
  simp [cleanProps_cons_iff, cleanProps_nil, distinctKeys, Props.lookup_nil, leafSchema,
    clean.eq_def]

/-- Claim C10: the analyze-then-merge pipeline only builds well-formed
schemas — `_analyze_structure` always returns a node whose "type" is one of
"object", "array", "string", "number", "boolean", where an "object" node
carries a "properties" dict of well-formed sub-schemas and an "array" node
carries a well-formed "items" schema, and `_merge_structures` preserves this
well-formedness — so a kind/payload mismatch (the synthesizer's
malformed-schema condition) never occurs on a schema the pipeline produced. -/
theorem pipeline_schemas_wellformed :
    (∀ (v : Json) (d : Nat), wfSchema (analyzeStructure v d) = true) ∧
    (∀ (a b : Schema), wfSchema a = true → wfSchema b = true →
      wfSchema (mergeStructures a b) = true) :=
  ⟨wf_analyzeStructure, wf_mergeStructures⟩

/-- Claim C10, witness: the merge half applied to two concrete analyzer
outputs, with the well-formedness hypotheses discharged by evaluation. -/
theorem pipeline_schemas_wellformed_witness :
    wfSchema (mergeStructures (leafSchema "number") (leafSchema "boolean")) = true :=
  pipeline_schemas_wellformed.2 (leafSchema "number") (leafSchema "boolean")
    (by rw [leafSchema, wfSchema.eq_def]; simp)
    (by rw [leafSchema, wfSchema.eq_def]; simp)

/-- Claim C5: merging two "object" schemas yields an "object" schema whose
properties dict behaves, under lookup at every key, as the union of the two
property-name sets — a key present in both sides maps to the recursive merge
of the two sub-schemas, and a key present in only one side maps to that
side's sub-schema unchanged. -/
theorem merge_objects_union (a b : Schema) (pa pb : Props)
    (hta : a.type? = some "object") (htb : b.type? = some "object")
    (hpa : a.properties? = some pa) (hpb : b.properties? = some pb) :
    (mergeStructures a b).type? = some "object" ∧
    ∃ pm, (mergeStructures a b).properties? = some pm ∧
      ∀ k, pm.lookup k
        = match pa.lookup k, pb.lookup k with
          | some va, some vb => some (mergeStructures va vb)
          | some va, none => some va
          | none, some vb => some vb
          | none, none => none := by
  rw [merge_object_step hta htb hpa hpb]
  refine ⟨rfl, _, rfl, ?_⟩
  intro k
  rw [lookup_append, lookup_mergeUpdated, lookup_mergeFresh]
  rcases hka : pa.lookup k with _ | va <;> rcases hkb : pb.lookup k with _ | vb <;>
    simp [hka, hkb]

/-- Claim C5, witness: `merge(analyze({"a": 1}), analyze({"b": "x"}))` is an
"object" schema with property "a" of kind Number and property "b" of kind
String. -/
theorem merge_objects_union_witness :
    (mergeStructures (analyzeStructure (.obj (.cons "a" (.num 1) .nil)) 10)
        (analyzeStructure (.obj (.cons "b" (.str "x") .nil)) 10)).type? = some "object" ∧
    ∃ pm,
      (mergeStructures (analyzeStructure (.obj (.cons "a" (.num 1) .nil)) 10)
          (analyzeStructure (.obj (.cons "b" (.str "x") .nil)) 10)).properties? = some pm ∧
      pm.lookup "a" = some (leafSchema "number") ∧
      pm.lookup "b" = some (leafSchema "string") := by
  have hA : analyzeStructure (.obj (.cons "a" (.num 1) .nil)) 10
      = .mk (some "object") (some (.cons "a" (leafSchema "number") .nil)) none false none := by
    simp [analyzeStructure, analyzeProps, leafSchema]
  have hB : analyzeStructure (.obj (.cons "b" (.str "x") .nil)) 10
      = .mk (some "object") (some (.cons "b" (leafSchema "string") .nil)) none false none := by
    simp [analyzeStructure, analyzeProps, leafSchema]
  obtain ⟨ht, pm, hpm, hlk⟩ := merge_objects_union
    (analyzeStructure (.obj (.cons "a" (.num 1) .nil)) 10)
    (analyzeStructure (.obj (.cons "b" (.str "x") .nil)) 10)
    (.cons "a" (leafSchema "number") .nil) (.cons "b" (leafSchema "string") .nil)
    (by rw [hA]; rfl) (by rw [hB]; rfl) (by rw [hA]; rfl) (by rw [hB]; rfl)
  refine ⟨ht, pm, hpm, ?_, ?_⟩
  · have h := hlk "a"
    simpa [Props.lookup_cons, Props.lookup_nil] using h
  · have h := hlk "b"
    simpa [Props.lookup_cons, Props.lookup_nil] using h

/-- Claim C7: for an "object" schema property whose name is in the preserve
set, annotation marks it `preserve_original = True`; it attaches
"original_values" — the values of the field across the mapping examples,
deduplicated by value equality in first-occurrence order (`specDedup` of
`specFieldValues`) — exactly when that list is non-empty, and leaves any
existing "original_values" alone (in particular attaches none on a fresh
analyzer output) when it is empty, while `preserve_original` stays true. -/
theorem annotate_preserved_property (s : Schema) (ps : Props) (examples : List Json)
    (name : String) (child : Schema)
    (hts : s.type? = some "object") (hps : s.properties? = some ps)
    (hlk : ps.lookup name = some child) (hpre : shouldPreserveField name = true) :
    ∃ ps' child', (addPreservedFieldInfo s examples).properties? = some ps' ∧
      ps'.lookup name = some child' ∧
      child'.preserveOriginal = true ∧
      child'.originalValues?
        = (if (extractOriginalValues name examples).isEmpty then child.originalValues?
           else some (extractOriginalValues name examples)) ∧
      extractOriginalValues name examples = specDedup (specFieldValues name examples) := by
  have hstep : addPreservedFieldInfo s examples
      = s.setProperties (some (annotateProps ps examples)) := by
    rw [addPreservedFieldInfo.eq_def, if_pos hts]
    split <;> simp_all
  rw [hstep]
  refine ⟨annotateProps ps examples, annotateChild name child examples,
    (setProperties_fields ..).2.1, ?_, (annotateChild_preserved name child examples hpre).1,
    (annotateChild_preserved name child examples hpre).2,
    extractOriginalValues_spec name examples⟩
  rw [lookup_annotateProps, hlk]
  rfl

/-- An example document `{"status": v}`. -/
def statusExample (v : String) : Json := .obj (.cons "status" (.str v) .nil)

/-- Claim C7, witness: with examples
`[{"status": "active"}, {"status": "pending"}, {"status": "active"}]`,
annotating the merged analyzed schema marks the "status" property preserved
with `original_values == ["active", "pending"]`. -/
theorem annotate_preserved_property_witness :
    ∃ ps' child',
      (addPreservedFieldInfo
          (mergeStructures
            (mergeStructures (analyzeStructure (statusExample "active") 10)
              (analyzeStructure (statusExample "pending") 10))
            (analyzeStructure (statusExample "active") 10))
          [statusExample "active", statusExample "pending", statusExample "active"]).properties?
        = some ps' ∧
      ps'.lookup "status" = some child' ∧
      child'.preserveOriginal = true ∧
      child'.originalValues? = some [.str "active", .str "pending"] := by
  have hs : mergeStructures
      (mergeStructures (analyzeStructure (statusExample "active") 10)
        (analyzeStructure (statusExample "pending") 10))
      (analyzeStructure (statusExample "active") 10)
      = .mk (some "object") (some (.cons "status" (leafSchema "string") .nil)) none false none := by
    simp [statusExample, analyzeStructure, analyzeProps, mergeStructures.eq_def,
      mergeUpdated, mergeFresh, Props.append, Props.lookup, leafSchema,
      Schema.type?, Schema.properties?]
  rw [hs]
  obtain ⟨ps', child', h1, h2, h3, h4, _⟩ := annotate_preserved_property
    (.mk (some "object") (some (.cons "status" (leafSchema "string") .nil)) none false none)
    (.cons "status" (leafSchema "string") .nil)
    [statusExample "active", statusExample "pending", statusExample "active"]
    "status" (leafSchema "string") rfl rfl
    (by rw [Props.lookup_cons]; simp) (by decide)
  refine ⟨ps', child', h1, h2, h3, ?_⟩
  rw [h4]
  have hex : extractOriginalValues "status"
      [statusExample "active", statusExample "pending", statusExample "active"]
      = [.str "active", .str "pending"] := by
    simp [extractOriginalValues, extractOriginalValuesAux, statusExample, JObj.lookup]
  rw [hex]
  simp [leafSchema]

/-- The C8 example document `{"id": "A", "child": {"id": "B"}}`. -/
def nestedIdExample : Json :=
  .obj (.cons "id" (.str "A") (.cons "child" (.obj (.cons "id" (.str "B") .nil)) .nil))

/-- Claim C8: annotating the analyzed schema of
`{"id": "A", "child": {"id": "B"}}` with that single example gives the outer
"id" property `original_values == ["A"]` only, and the nested `child.id`
property `original_values == ["B"]` only — annotation of the nested object
uses exactly the sub-examples extracted at the "child" field, so values do
not leak across nesting levels. -/
theorem nested_preservation_scoping :
    addPreservedFieldInfo (analyzeStructure nestedIdExample 10) [nestedIdExample]
      = .mk (some "object")
          (some (.cons "id" (.mk (some "string") none none true (some [.str "A"]))
            (.cons "child"
              (.mk (some "object")
                (some (.cons "id" (.mk (some "string") none none true (some [.str "B"])) .nil))
                none false none) .nil)))
          none false none := by
  simp [nestedIdExample, analyzeStructure, analyzeProps, addPreservedFieldInfo, annotateProps,
    annotateChildCore, annotateChild, markPreserved, extractOriginalValues,
    extractOriginalValuesAux, nestedExamples, arrayExamples, extractNestedValue, JObj.lookup,
    shouldPreserveField, preserveFields, leafSchema, Schema.type?, Schema.properties?,
    Schema.items?, Schema.setProperties, Schema.setItems]

/-- Claim C9: for a non-empty corpus, once a call of
`SchemaAnalyzer.analyze_structure` has returned a schema `s` for key `key`
(leaving the cache in state `cache1`), any further call with the same key —
even over a different non-empty corpus — returns exactly the stored `s`
without running the analyze/merge/annotate pipeline, and leaves the cache
unchanged. -/
theorem cached_inference_returns_stored (cache : SchemaCache) (ex1 ex2 : List Json)
    (key : String) (s : Schema) (cache1 : SchemaCache)
    (h1 : ex1 ≠ []) (h2 : ex2 ≠ [])
    (hc : saAnalyzeStructure cache ex1 key = .ok (s, cache1)) :
    saAnalyzeStructure cache1 ex2 key = .ok (s, cache1) := by
  have hhit : cache1.getSchema key = some s := by
    rcases ex1 with _ | ⟨e0, rest⟩
    · exact absurd rfl h1
    · rcases hg : cache.getSchema key with _ | cached
      · simp only [saAnalyzeStructure, hg] at hc
        cases hbase : saAnalyzeValue e0 10 with
        | error e => simp [hbase, Bind.bind, Except.bind] at hc
        | ok base =>
          rcases rest with _ | ⟨e1, rest1⟩
          · simp [hbase, Bind.bind, Except.bind] at hc
            obtain ⟨hs, hcache⟩ := hc
            rw [← hcache, ← hs]
            exact SchemaCache.getSchema_setSchema cache key _
          · simp [hbase, Bind.bind, Except.bind] at hc
      · simp only [saAnalyzeStructure, hg] at hc
        simp at hc
        obtain ⟨hs, hcache⟩ := hc
        rw [← hcache, hg, hs]
  rcases ex2 with _ | ⟨f0, r2⟩
  · exact absurd rfl h2
  · simp only [saAnalyzeStructure, hhit]

/-- Claim C9, witness: after a first call over `[{"a": 1}]` stores a schema
under key "k", a second call with the same key over the different corpus
`[true]` returns the stored schema and leaves the cache unchanged. -/
theorem cached_inference_returns_stored_witness :
    saAnalyzeStructure
        [("k", .mk (some "object") (some (.cons "a" (leafSchema "number") .nil)) none false none)]
        [.bool true] "k"
      = .ok (.mk (some "object") (some (.cons "a" (leafSchema "number") .nil)) none false none,
          [("k", .mk (some "object") (some (.cons "a" (leafSchema "number") .nil)) none false none)]) := by
  apply cached_inference_returns_stored [] [.obj (.cons "a" (.num 1) .nil)] [.bool true] "k"
    _ _ (by simp) (by simp)
  simp [saAnalyzeStructure, SchemaCache.getSchema, SchemaCache.setSchema, saAnalyzeValue,
    saAnalyzeProps, Bind.bind, Except.bind, addPreservedFieldInfo, annotateProps,
    annotateChildCore, markPreserved, nestedExamples, arrayExamples, extractNestedValue,
    extractOriginalValues, extractOriginalValuesAux, JObj.lookup, shouldPreserveField,
    preserveFields, leafSchema, Schema.type?, Schema.properties?, Schema.items?,
    Schema.setProperties, Schema.setItems]

end MockJson
